import Mathlib

/-!
# Shallow embedding of westures-core (input tracking and dispatch engine)

This file embeds the data model and operations of the westures-core
JavaScript library: `PointerData` (one pointer sample), `Input` (the
lifetime record of one pointer identifier), the active-input registry
(`State`), `Binding` and the `Region` arbitration pass, and proves the
specification's testable properties about them.

Element and object identities (JavaScript reference equality, `===`) are
modelled as natural-number tags; object allocation is modelled by an
explicit allocation counter threaded through the operations, so that a
freshly built object's tag differs from every tag already in use.
Fallible construction (JavaScript exceptions) is modelled with `Except`.
-/

namespace Westures

/-- The lifecycle phase of an input: values of the PHASE lookup table.
`cancel` appears in the specification's phase enumeration; the event-name
table maps the down/move/up families. -/
inductive Phase where
  | start
  | move
  | end_
  | cancel
deriving DecidableEq, Repr

/-- Modelled from the spec: the fixed event-type → phase lookup table
(src/PHASE.js is absent from the sources; the table is fixed by §4.1 of
the spec and by the event-name lists in src/Region.js). An event type
outside the table has no phase (`PHASE[type]` is `undefined`). -/
def PHASE : String → Option Phase
  | "mousedown" => some .start
  | "touchstart" => some .start
  | "pointerdown" => some .start
  | "mousemove" => some .move
  | "touchmove" => some .move
  | "pointermove" => some .move
  | "mouseup" => some .end_
  | "touchend" => some .end_
  | "pointerup" => some .end_
  | _ => none

/-- One entry of a multi-touch event's `changedTouches` collection. -/
structure Touch where
  identifier : Int
  clientX : Int
  clientY : Int
deriving DecidableEq, Repr

/-- The shape of a raw input event consumed by the engine.  `target` is an
element identity; `composedPath` is `some` when the event object provides a
`composedPath` method (returning that path), `none` otherwise;
`changedTouches` is `some` exactly for multi-touch payloads; `timeStamp`
is a timestamp the payload may carry. -/
structure RawEvent where
  type : String
  clientX : Int
  clientY : Int
  target : Nat
  changedTouches : Option (List Touch)
  composedPath : Option (List Nat)
  timeStamp : Nat
deriving DecidableEq, Repr

/-- Point2D: storage of a 2-dimensional point (src/Point2D.js).  Only the
coordinate storage is needed by the claims. -/
structure Point2D where
  x : Int
  y : Int
deriving DecidableEq, Repr

/-- The failure raised at PointerData construction (the spec's
`InvalidEventError`): either no raw event was supplied, or a multi-touch
payload carries no entry with the requested identifier. -/
inductive InvalidEventError where
  | missingEvent
  | identifierNotFound
deriving DecidableEq, Repr

/-- The coordinate-bearing object `getEventObject` selects: either the
matching `changedTouches` entry or the event itself (src/PointerData.js,
function getEventObject).  `none` models the `undefined` result of a
failed `Array.find`, whose subsequent dereference throws. -/
def getEventObject (event : RawEvent) (identifier : Int) : Option Point2D :=
  match event.changedTouches with
  | some touches =>
      (touches.find? (fun t => t.identifier == identifier)).map
        (fun t => ⟨t.clientX, t.clientY⟩)
  | none => some ⟨event.clientX, event.clientY⟩

/-- PointerData: low-level storage of pointer data from one event
(src/PointerData.js). -/
structure PointerData where
  originalEvent : RawEvent
  type : Option Phase
  time : Nat
  point : Point2D
deriving DecidableEq, Repr

/-- The PointerData constructor.  `event` is `none` when no raw event is
supplied (`new PointerData()`); `now` is the value of `Date.now()` at the
moment of construction.  Construction throws exactly when the event is
missing or the multi-touch lookup dereferences `undefined`. -/
def PointerData.make (event : Option RawEvent) (identifier : Int)
    (now : Nat) : Except InvalidEventError PointerData :=
  match event with
  | none => .error .missingEvent
  | some ev =>
      match getEventObject ev identifier with
      | none => .error .identifierNotFound
      | some pt => .ok ⟨ev, PHASE ev.type, now, pt⟩

/-- The host DOM, as far as the engine reads it: a parent map over element
identities, the distinguished `document` and `window` objects, and a fuel
bound on parent-chain walks (the JavaScript loop terminates exactly when
`document` is reachable; `fuel` bounds the chain length considered). -/
structure Dom where
  parent : Nat → Nat
  document : Nat
  window : Nat
  fuel : Nat

/-- The parent-chain walk of `getPropagationPath`'s fallback loop:
`for (node = target; node !== document; node = node.parentNode)`,
collecting each visited node. -/
def walkToDocument (dom : Dom) : Nat → Nat → List Nat
  | 0, _ => []
  | fuel + 1, node =>
      if node = dom.document then []
      else node :: walkToDocument dom fuel (dom.parent node)

/-- Whether iterating the parent map from `node` reaches `document` within
`fuel` steps (the condition under which the JavaScript loop terminates). -/
def reachesDocument (dom : Dom) : Nat → Nat → Bool
  | 0, node => node == dom.document
  | fuel + 1, node =>
      node == dom.document || reachesDocument dom fuel (dom.parent node)

/-- getPropagationPath (src/Input.js): uses `event.composedPath()` when
available; otherwise walks `parentNode` links from `event.target` up to
(but excluding) `document`, then pushes `document` and `window`. -/
def getPropagationPath (dom : Dom) (event : RawEvent) : List Nat :=
  match event.composedPath with
  | some p => p
  | none =>
      walkToDocument dom dom.fuel event.target ++ [dom.document, dom.window]

/-- getElementsInPath (src/Input.js): the set of elements along the
event's propagation path (a WeakSet in JavaScript; membership is all the
engine reads from it). -/
def getElementsInPath (dom : Dom) (event : RawEvent) : List Nat :=
  getPropagationPath dom event

/-- A heap reference paired with the referenced PointerData: `id` is the
object identity (`===`), `val` the object's contents. -/
structure Ref where
  id : Nat
  val : PointerData
deriving DecidableEq, Repr

/-- Input (src/Input.js): tracks a single pointer identifier.  `initial`,
`current` and `previous` hold PointerData references; `initialElements`
is the frozen start-path element set; `progress` maps gesture ids to
scratch-record identities and `records` holds those records' contents
(`nextRecordId` is the record allocator). -/
structure Input where
  initialElements : List Nat
  initial : Ref
  current : Ref
  previous : Ref
  identifier : Int
  progress : List (String × Nat)
  records : List (Nat × List (String × Int))
  nextRecordId : Nat
deriving DecidableEq, Repr

/-- The Input constructor: builds one PointerData from the event and
installs it as `initial`, `current` and `previous` (the same instance),
captures the propagation-path element set, and starts with empty gesture
progress.  `alloc` is the PointerData allocation counter; the new
instance gets identity `alloc`. -/
def Input.construct (dom : Dom) (event : RawEvent) (identifier : Int)
    (now alloc : Nat) : Except InvalidEventError (Input × Nat) := do
  let pd ← PointerData.make (some event) identifier now
  let currentData : Ref := ⟨alloc, pd⟩
  .ok (⟨getElementsInPath dom event, currentData, currentData, currentData,
        identifier, [], [], 0⟩, alloc + 1)

/-- Input.prototype.update: `this.previous = this.current;
this.current = new PointerData(event, this.identifier);`.  The new
PointerData gets the fresh identity `alloc`. -/
def Input.update (inp : Input) (event : RawEvent) (now alloc : Nat) :
    Except InvalidEventError (Input × Nat) := do
  let pd ← PointerData.make (some event) inp.identifier now
  .ok ({ inp with previous := inp.current, current := ⟨alloc, pd⟩ },
       alloc + 1)

/-- Input.prototype.wasInitiallyInside: membership test against the frozen
start-path element set. -/
def Input.wasInitiallyInside (inp : Input) (element : Nat) : Bool :=
  inp.initialElements.contains element

/-- Input.prototype.getProgressOfGesture: `if (!this.progress[id])
this.progress[id] = {}; return this.progress[id];` — returns the identity
of the scratch record for the gesture id, creating an empty record on
first access.  Returns the record identity and the (possibly extended)
input. -/
def Input.getProgressOfGesture (inp : Input) (id : String) : Nat × Input :=
  match inp.progress.lookup id with
  | some r => (r, inp)
  | none =>
      (inp.nextRecordId,
       { inp with
         progress := (id, inp.nextRecordId) :: inp.progress,
         records := (inp.nextRecordId, []) :: inp.records,
         nextRecordId := inp.nextRecordId + 1 })

/-- A gesture mutating its scratch record (`record[key] = value` on the
object returned by getProgressOfGesture), addressed by record identity. -/
def Input.setProgressField (inp : Input) (recordId : Nat) (key : String)
    (value : Int) : Input :=
  { inp with
    records := inp.records.map
      (fun p => if p.1 = recordId then (p.1, (key, value) :: p.2) else p) }

/-- The `phase` getter: `this.current.type`. -/
def Input.phase (inp : Input) : Option Phase :=
  inp.current.val.type

/-- Modelled from the spec: the active-input registry (src/State.js is
absent from the sources).  §3 of the spec: a mapping from identifier to
InputTrack with unique keys and stable iteration order, modelled as an
association list. -/
abbrev State := List (Int × Input)

/-- Modelled from the spec: the identifier extraction of
`reconcile`/updateAllInputs (src/State.js is absent) — "a function that
extracts all (identifier, isNewContact) pairs" the raw event carries: a
multi-touch payload carries its changed contacts' identifiers; a
single-pointer event carries one identifier. -/
def eventIdentifiers (event : RawEvent) : List Int :=
  match event.changedTouches with
  | some touches => touches.map (fun t => t.identifier)
  | none => [0]

/-- Modelled from the spec: one reconciliation step of updateAllInputs
(src/State.js is absent).  §4.3: "if the identifier is unknown, construct
and insert a new InputTrack; otherwise call update on the existing
track." -/
def State.updateOne (dom : Dom) (s : State) (alloc : Nat) (event : RawEvent)
    (now : Nat) (id : Int) : Except InvalidEventError (State × Nat) :=
  match s.lookup id with
  | some inp => do
      let r ← inp.update event now alloc
      .ok (s.map (fun p => if p.1 = id then (id, r.1) else p), r.2)
  | none => do
      let r ← Input.construct dom event id now alloc
      .ok (s ++ [(id, r.1)], r.2)

/-- Modelled from the spec: State.updateAllInputs / `reconcile(rawEvent)`
(src/State.js is absent) — reconcile every identifier the event
carries. -/
def State.updateAllInputs (dom : Dom) (s : State) (event : RawEvent)
    (now alloc : Nat) : Except InvalidEventError (State × Nat) :=
  (eventIdentifiers event).foldlM
    (fun sa id => State.updateOne dom sa.1 sa.2 event now id) (s, alloc)

/-- Whether a phase is terminal (end or cancel), §4.3 of the spec. -/
def isTerminalPhase : Option Phase → Bool
  | some .end_ => true
  | some .cancel => true
  | _ => false

/-- Modelled from the spec: State.clearEndedInputs / `purgeEnded()`
(src/State.js is absent) — removes every InputTrack whose current phase
is terminal. -/
def State.clearEndedInputs (s : State) : State :=
  s.filter (fun p => !isTerminalPhase p.2.phase)

/-- Modelled from the spec: State.someInputWasInitiallyInside /
`tracksStartedInside(element)` (src/State.js is absent) — true if any
currently-registered InputTrack satisfies `wasInitiallyInside`. -/
def State.someInputWasInitiallyInside (s : State) (element : Nat) : Bool :=
  s.any (fun p => p.2.wasInitiallyInside element)

/-- A JavaScript value as returned by a gesture hook: `null`/`undefined`
or a defined value (numbers, strings, booleans, plain objects —
including falsy-but-defined ones such as `0`, the empty string and the
empty object). -/
inductive JSVal where
  | null
  | undef
  | num (n : Int)
  | str (s : String)
  | bool (b : Bool)
  | obj (fields : List (String × Int))
deriving DecidableEq, Repr

/-- The JavaScript loose test `value != null`, negated: true exactly for
`null` and `undefined`. -/
def JSVal.isNullish : JSVal → Bool
  | .null => true
  | .undef => true
  | _ => false

/-- Binding: the triple (element, gesture, handler), each a JavaScript
object identity; `ref` is the Binding object's own identity. -/
structure Binding where
  ref : Nat
  element : Nat
  gesture : Nat
  handler : Nat
deriving DecidableEq, Repr

/-- The behaviour of the gesture objects in play, by gesture identity: for
each phase, the hook method if the gesture implements one (`none` models
an absent hook). -/
def GestureEnv := Nat → Phase → Option (State → JSVal)

/-- Modelled from the spec: Binding.evaluateHook(phase, state)
(src/Binding.js is absent).  §4.4: invoke the gesture's hook for the
phase with the registry; an absent hook counts as returning null; a
non-null return triggers `handler(value)` exactly once with that value,
a null/absent return triggers nothing.  The result is the list of
handler invocations (handler identity, argument) the call performs. -/
def Binding.evaluateHook (env : GestureEnv) (b : Binding)
    (phase : Option Phase) (s : State) : List (Nat × JSVal) :=
  match phase with
  | none => []
  | some ph =>
      match env b.gesture ph with
      | none => []
      | some hook =>
          let data := hook s
          if data.isNullish then [] else [(b.handler, data)]

/-- Region (src/Region.js): the binding list and the input state (the
listener-installation fields play no part in arbitration and binding
management). -/
structure Region where
  bindings : List Binding
  state : State
deriving Repr

/-- Region.prototype.bind: `this.bindings.push(new Binding(element,
gesture, handler))`.  `ref` is the fresh Binding object's identity. -/
def Region.bind (r : Region) (ref element gesture handler : Nat) : Region :=
  { r with bindings := r.bindings ++ [⟨ref, element, gesture, handler⟩] }

/-- Region.prototype.retrieveBindingsByElement:
`this.bindings.filter(b => b.element === element)`. -/
def Region.retrieveBindingsByElement (r : Region) (element : Nat) :
    List Binding :=
  r.bindings.filter (fun b => b.element == element)

/-- Region.prototype.retrieveBindingsByInitialPos: `this.bindings.filter(
b => this.state.someInputWasInitiallyInside(b.element))`. -/
def Region.retrieveBindingsByInitialPos (r : Region) : List Binding :=
  r.bindings.filter
    (fun b => r.state.someInputWasInitiallyInside b.element)

/-- `array.indexOf(b)`: the index of the first element `===`-equal to
`b`. -/
def indexOfBinding (l : List Binding) (b : Binding) : Option Nat :=
  l.findIdx? (fun c => c.ref == b.ref)

/-- `array.splice(array.indexOf(b), 1)`: removes the element at the found
index; when `indexOf` returns -1, `splice(-1, 1)` removes the LAST
element of a non-empty array. -/
def spliceRemoveOne (l : List Binding) (b : Binding) : List Binding :=
  match indexOfBinding l b with
  | some i => l.eraseIdx i
  | none => l.dropLast

/-- Region.prototype.unbind: filters the bindings by element, then for
each match (all of them when `gesture` is undefined, else those whose
gesture is `===` the given one) splices it out of `this.bindings` and
collects it.  Returns the new binding list and the unbound list. -/
def Region.unbind (r : Region) (element : Nat) (gesture : Option Nat) :
    List Binding × List Binding :=
  let bindings := r.retrieveBindingsByElement element
  bindings.foldl
    (fun acc b =>
      if gesture = none ∨ some b.gesture = gesture then
        (spliceRemoveOne acc.1 b, acc.2 ++ [b])
      else acc)
    (r.bindings, [])

/-- The observable outcome of one Region.arbitrate pass: the hook
dispatches performed (each with the registry object it observes), the
handler invocations they produced, and the final registry and
allocator. -/
structure ArbitrationResult where
  dispatches : List (Binding × Option Phase × State)
  handlerCalls : List (Nat × JSVal)
  finalState : State
  alloc : Nat
deriving Repr

/-- Region.prototype.arbitrate (src/Region.js):
`this.state.updateAllInputs(event, this.element);
this.retrieveBindingsByInitialPos().forEach(binding =>
binding.evaluateHook(PHASE[event.type], this.state));
this.state.clearEndedInputs();` — registry update, then binding
selection, then hook dispatch (each hook receiving `this.state`, i.e. the
updated registry), then the purge of ended tracks.  An
InvalidEventError from the update propagates out unswallowed. -/
def Region.arbitrate (dom : Dom) (env : GestureEnv) (r : Region)
    (event : RawEvent) (now alloc : Nat) :
    Except InvalidEventError (Region × ArbitrationResult) := do
  let su ← r.state.updateAllInputs dom event now alloc
  let s1 := su.1
  let selected := { r with state := s1 }.retrieveBindingsByInitialPos
  let dispatches := selected.map (fun b => (b, PHASE event.type, s1))
  let handlerCalls :=
    (selected.map (fun b => b.evaluateHook env (PHASE event.type) s1)).flatten
  let s2 := s1.clearEndedInputs
  .ok ({ r with state := s2 }, ⟨dispatches, handlerCalls, s2, su.2⟩)

/-! ## Concrete sample data, used by the witness theorems -/

/-- A multi-touch raw event with two changed contacts (identifiers 17 and
42), as in the PointerData test suite. -/
def touchEventEx : RawEvent :=
  { type := "touchstart", clientX := 0, clientY := 0, target := 5,
    changedTouches := some [⟨17, -2, -12⟩, ⟨42, 343, 117⟩],
    composedPath := none, timeStamp := 1000 }

/-- A single-pointer (mouse) raw event, as in the PointerData test
suite. -/
def mouseEventEx : RawEvent :=
  { type := "mousemove", clientX := 89, clientY := 53, target := 4,
    changedTouches := none, composedPath := some [4, 0, 1],
    timeStamp := 2000 }

/-! ## Claim theorems -/

/-- Claim C7: PointerData derives its position from the matching
`changedTouches` entry when the event carries a multi-touch payload (and
that entry's identifier equals the given identifier), and from the
event's own coordinates otherwise, in which case the identifier argument
has no effect at all on the constructed data. -/
theorem pointerdata_position_spec (ev : RawEvent) (id : Int) (now : Nat) :
    (∀ touches t, ev.changedTouches = some touches →
      touches.find? (fun u => u.identifier == id) = some t →
      PointerData.make (some ev) id now =
        .ok ⟨ev, PHASE ev.type, now, ⟨t.clientX, t.clientY⟩⟩ ∧
      t.identifier = id) ∧
    (ev.changedTouches = none →
      PointerData.make (some ev) id now =
        .ok ⟨ev, PHASE ev.type, now, ⟨ev.clientX, ev.clientY⟩⟩ ∧
      ∀ id2 : Int,
        PointerData.make (some ev) id2 now =
          PointerData.make (some ev) id now) := by
  constructor
  · intro touches t htc hfind
    have hid : t.identifier = id := by
      have := List.find?_some hfind
      simpa using this
    refine ⟨?_, hid⟩
    simp [PointerData.make, getEventObject, htc, hfind]
  · intro hnone
    refine ⟨?_, ?_⟩
    · simp [PointerData.make, getEventObject, hnone]
    · intro id2
      simp [PointerData.make, getEventObject, hnone]

/-- Witness for C7 at the concrete sample events: the touch event with
identifier 42 yields position (343, 117) from the matching contact, and
the mouse event yields its own (89, 53) for any identifier. -/
theorem pointerdata_position_spec_witness :
    (PointerData.make (some touchEventEx) 42 7 =
      .ok ⟨touchEventEx, PHASE touchEventEx.type, 7, ⟨343, 117⟩⟩ ∧
     Touch.identifier ⟨42, 343, 117⟩ = 42) ∧
    PointerData.make (some mouseEventEx) 42 7 =
      .ok ⟨mouseEventEx, PHASE mouseEventEx.type, 7, ⟨89, 53⟩⟩ := by
  constructor
  · exact (pointerdata_position_spec touchEventEx 42 7).1
      [⟨17, -2, -12⟩, ⟨42, 343, 117⟩] ⟨42, 343, 117⟩ rfl (by decide)
  · exact ((pointerdata_position_spec mouseEventEx 42 7).2 rfl).1

/-- Claim C10: a PointerData's `time` field is the clock sample
(`Date.now()`) taken at construction, not any timestamp carried by the
payload: two PointerData built from the same payload at different
instants have different `time` but identical payload-derived fields, and
changing the payload's own `timeStamp` field leaves `time` (and the
position and phase) unchanged. -/
theorem pointerdata_time_from_clock (ev : RawEvent) (id : Int)
    (now1 now2 : Nat) (p1 p2 : PointerData)
    (h1 : PointerData.make (some ev) id now1 = .ok p1)
    (h2 : PointerData.make (some ev) id now2 = .ok p2)
    (hne : now1 ≠ now2) :
    p1.time = now1 ∧ p2.time = now2 ∧ p1.time ≠ p2.time ∧
    p1.point = p2.point ∧ p1.type = p2.type ∧
    p1.originalEvent = p2.originalEvent ∧
    ∀ ts : Nat,
      PointerData.make (some { ev with timeStamp := ts }) id now1 =
        .ok { p1 with originalEvent := { ev with timeStamp := ts } } := by
  have hgeo :
      getEventObject { ev with timeStamp := 0 } id = getEventObject ev id := by
    simp [getEventObject]
  cases hg : getEventObject ev id with
  | none =>
      exfalso
      simp [PointerData.make, hg] at h1
  | some pt =>
      simp [PointerData.make, hg] at h1 h2
      refine ⟨?_, ?_, ?_, ?_, ?_, ?_, ?_⟩
      · rw [← h1]
      · rw [← h2]
      · rw [← h1, ← h2]; exact hne
      · rw [← h1, ← h2]
      · rw [← h1, ← h2]
      · rw [← h1, ← h2]
      · intro ts
        have hgeo2 :
            getEventObject { ev with timeStamp := ts } id =
              getEventObject ev id := by
          simp [getEventObject]
        rw [← h1]
        simp [PointerData.make, hgeo2, hg, PHASE]

/-- Witness for C10: two constructions from the mouse sample event at
clock instants 7 and 8. -/
theorem pointerdata_time_from_clock_witness :
    PointerData.time
        ⟨mouseEventEx, PHASE mouseEventEx.type, 7, ⟨89, 53⟩⟩ = 7 ∧
    PointerData.time
        ⟨mouseEventEx, PHASE mouseEventEx.type, 8, ⟨89, 53⟩⟩ = 8 ∧
    PointerData.time
        ⟨mouseEventEx, PHASE mouseEventEx.type, 7, ⟨89, 53⟩⟩ ≠
      PointerData.time
        ⟨mouseEventEx, PHASE mouseEventEx.type, 8, ⟨89, 53⟩⟩ ∧
    PointerData.point
        ⟨mouseEventEx, PHASE mouseEventEx.type, 7, ⟨89, 53⟩⟩ =
      PointerData.point
        ⟨mouseEventEx, PHASE mouseEventEx.type, 8, ⟨89, 53⟩⟩ ∧
    PointerData.type
        ⟨mouseEventEx, PHASE mouseEventEx.type, 7, ⟨89, 53⟩⟩ =
      PointerData.type
        ⟨mouseEventEx, PHASE mouseEventEx.type, 8, ⟨89, 53⟩⟩ ∧
    PointerData.originalEvent
        ⟨mouseEventEx, PHASE mouseEventEx.type, 7, ⟨89, 53⟩⟩ =
      PointerData.originalEvent
        ⟨mouseEventEx, PHASE mouseEventEx.type, 8, ⟨89, 53⟩⟩ ∧
    ∀ ts : Nat,
      PointerData.make (some { mouseEventEx with timeStamp := ts }) 42 7 =
        .ok { PointerData.mk mouseEventEx (PHASE mouseEventEx.type) 7
                ⟨89, 53⟩ with
              originalEvent := { mouseEventEx with timeStamp := ts } } :=
  pointerdata_time_from_clock mouseEventEx 42 7 8
    ⟨mouseEventEx, PHASE mouseEventEx.type, 7, ⟨89, 53⟩⟩
    ⟨mouseEventEx, PHASE mouseEventEx.type, 8, ⟨89, 53⟩⟩
    rfl rfl (by decide)

/-- A sample PointerData value. -/
def pdEx : PointerData := ⟨touchEventEx, some .start, 0, ⟨-2, -12⟩⟩

/-- A sample DOM: constant parent map, document 0, window 1. -/
def domEx : Dom := ⟨fun _ => 0, 0, 1, 4⟩

/-- A gesture environment with no hooks at all. -/
def envEx : GestureEnv := fun _ _ => none

/-- An Input whose `identifier` field (99) differs from its registry key,
used to exhibit a failing reconciliation. -/
def inputEx : Input :=
  { initialElements := [5, 0, 1], initial := ⟨0, pdEx⟩,
    current := ⟨0, pdEx⟩, previous := ⟨0, pdEx⟩, identifier := 99,
    progress := [], records := [], nextRecordId := 0 }

/-- A sample region holding `inputEx` under key 17. -/
def regionEx : Region := { bindings := [], state := [(17, inputEx)] }

/-- Claim C5: PointerData construction fails with an InvalidEventError
exactly when no raw event is supplied, or when a multi-touch payload
contains no entry whose identifier matches the given identifier; the
failure is the construction's synchronous result, and an error raised
while the arbitration pass updates the registry propagates out of
`Region.arbitrate` unswallowed. -/
theorem pointerdata_invalid_event_spec :
    (∀ (id : Int) (now : Nat),
      PointerData.make none id now = .error .missingEvent) ∧
    (∀ (ev : RawEvent) (id : Int) (now : Nat),
      (∃ err, PointerData.make (some ev) id now = .error err) ↔
      ∃ touches, ev.changedTouches = some touches ∧
        ∀ t ∈ touches, t.identifier ≠ id) ∧
    (∀ (dom : Dom) (env : GestureEnv) (r : Region) (event : RawEvent)
        (now alloc : Nat) (err : InvalidEventError),
      State.updateAllInputs dom r.state event now alloc = .error err →
      Region.arbitrate dom env r event now alloc = .error err) := by
  refine ⟨fun id now => rfl, ?_, ?_⟩
  · intro ev id now
    cases htc : ev.changedTouches with
    | none => simp [PointerData.make, getEventObject, htc]
    | some touches =>
        cases hfind : touches.find? (fun t => t.identifier == id) with
        | none =>
            simp [PointerData.make, getEventObject, htc, hfind]
            have := List.find?_eq_none.mp hfind
            simpa using this
        | some t =>
            simp [PointerData.make, getEventObject, htc, hfind]
            exact ⟨t, List.mem_of_find?_eq_some hfind,
              by simpa using List.find?_some hfind⟩
  · intro dom env r event now alloc err h
    simp only [Region.arbitrate, h]
    rfl

/-- Witness for C5: construction with no event fails; construction from
the touch sample with unmatched identifier 99 fails; an arbitration pass
whose registry update fails yields exactly that error. -/
theorem pointerdata_invalid_event_spec_witness :
    PointerData.make none 3 0 = .error .missingEvent ∧
    (∃ err, PointerData.make (some touchEventEx) 99 0 = .error err) ∧
    Region.arbitrate domEx envEx regionEx touchEventEx 0 5 =
      .error .identifierNotFound := by
  refine ⟨pointerdata_invalid_event_spec.1 3 0, ?_, ?_⟩
  · exact (pointerdata_invalid_event_spec.2.1 touchEventEx 99 0).mpr
      ⟨[⟨17, -2, -12⟩, ⟨42, 343, 117⟩], rfl, by decide⟩
  · exact pointerdata_invalid_event_spec.2.2 domEx envEx regionEx
      touchEventEx 0 5 .identifierNotFound rfl

/-- Claim C4: evaluateHook never invokes the handler when the gesture's
hook for the phase is absent or returns null, and invokes it exactly once
with exactly the returned value when that value is non-null (including
falsy-but-defined values); the returned invocation list is the call's
entire observable effect. -/
theorem evaluatehook_dispatch_spec (env : GestureEnv) (b : Binding)
    (ph : Phase) (s : State) :
    (env b.gesture ph = none →
      Binding.evaluateHook env b (some ph) s = []) ∧
    (∀ hook, env b.gesture ph = some hook → hook s = .null →
      Binding.evaluateHook env b (some ph) s = []) ∧
    (∀ hook, env b.gesture ph = some hook → (hook s).isNullish = false →
      Binding.evaluateHook env b (some ph) s = [(b.handler, hook s)]) := by
  refine ⟨?_, ?_, ?_⟩
  · intro h
    simp [Binding.evaluateHook, h]
  · intro hook h hv
    simp [Binding.evaluateHook, h, hv, JSVal.isNullish]
  · intro hook h hv
    simp [Binding.evaluateHook, h, hv]

/-- A gesture environment exercising the dispatch rule: gesture 0 returns
the empty object, gesture 1 returns 0, gesture 2 returns the empty
string, gesture 3 returns null, gesture 4 has no hooks. -/
def envDispatchEx : GestureEnv := fun g _ =>
  if g = 0 then some (fun _ => .obj [])
  else if g = 1 then some (fun _ => .num 0)
  else if g = 2 then some (fun _ => .str "")
  else if g = 3 then some (fun _ => .null)
  else none

/-- Witness for C4: the empty object, 0 and the empty string each trigger
exactly one handler call carrying that exact value; null and an absent
hook trigger none. -/
theorem evaluatehook_dispatch_spec_witness :
    Binding.evaluateHook envDispatchEx ⟨10, 5, 0, 70⟩ (some .move) [] =
      [(70, .obj [])] ∧
    Binding.evaluateHook envDispatchEx ⟨11, 5, 1, 71⟩ (some .move) [] =
      [(71, .num 0)] ∧
    Binding.evaluateHook envDispatchEx ⟨12, 5, 2, 72⟩ (some .move) [] =
      [(72, .str "")] ∧
    Binding.evaluateHook envDispatchEx ⟨13, 5, 3, 73⟩ (some .move) [] = [] ∧
    Binding.evaluateHook envDispatchEx ⟨14, 5, 4, 74⟩ (some .move) [] =
      [] := by
  refine ⟨?_, ?_, ?_, ?_, ?_⟩
  · exact (evaluatehook_dispatch_spec envDispatchEx ⟨10, 5, 0, 70⟩
      .move []).2.2 (fun _ => .obj []) rfl rfl
  · exact (evaluatehook_dispatch_spec envDispatchEx ⟨11, 5, 1, 71⟩
      .move []).2.2 (fun _ => .num 0) rfl rfl
  · exact (evaluatehook_dispatch_spec envDispatchEx ⟨12, 5, 2, 72⟩
      .move []).2.2 (fun _ => .str "") rfl rfl
  · exact (evaluatehook_dispatch_spec envDispatchEx ⟨13, 5, 3, 73⟩
      .move []).2.1 (fun _ => .null) rfl rfl
  · exact (evaluatehook_dispatch_spec envDispatchEx ⟨14, 5, 4, 74⟩
      .move []).1 rfl

/-- Unfolding equation for Input.construct on a successful PointerData
build. -/
theorem Input.construct_eq (dom : Dom) (event : RawEvent) (id : Int)
    (now alloc : Nat) (pd : PointerData)
    (hmk : PointerData.make (some event) id now = .ok pd) :
    Input.construct dom event id now alloc =
      .ok (⟨getElementsInPath dom event, ⟨alloc, pd⟩, ⟨alloc, pd⟩,
            ⟨alloc, pd⟩, id, [], [], 0⟩, alloc + 1) := by
  unfold Input.construct
  rw [hmk]
  rfl

/-- Unfolding equation for Input.update on a successful PointerData
build. -/
theorem Input.update_eq (inp : Input) (event : RawEvent) (now alloc : Nat)
    (pd : PointerData)
    (hmk : PointerData.make (some event) inp.identifier now = .ok pd) :
    Input.update inp event now alloc =
      .ok ({ inp with previous := inp.current, current := ⟨alloc, pd⟩ },
           alloc + 1) := by
  unfold Input.update
  rw [hmk]
  rfl

/-- Unfolding equation for Input.update on a failing PointerData build. -/
theorem Input.update_eq_error (inp : Input) (event : RawEvent)
    (now alloc : Nat) (e : InvalidEventError)
    (hmk : PointerData.make (some event) inp.identifier now = .error e) :
    Input.update inp event now alloc = .error e := by
  unfold Input.update
  rw [hmk]
  rfl

/-- Unfolding equation for Input.construct on a failing PointerData
build. -/
theorem Input.construct_eq_error (dom : Dom) (event : RawEvent) (id : Int)
    (now alloc : Nat) (e : InvalidEventError)
    (hmk : PointerData.make (some event) id now = .error e) :
    Input.construct dom event id now alloc = .error e := by
  unfold Input.construct
  rw [hmk]
  rfl

/-- Claim C3: Input.update installs the old `current` reference as
`previous` and a freshly allocated PointerData as `current`, leaving
`initial` untouched; hence after the first update `previous` is the very
instance installed as `initial` at construction, and after any update
`initial` is never the same instance as the new `current`. -/
theorem input_update_identity_spec :
    (∀ (inp : Input) (event : RawEvent) (now alloc : Nat) (inp' : Input)
        (alloc' : Nat),
      inp.initial.id < alloc →
      Input.update inp event now alloc = .ok (inp', alloc') →
      inp'.previous = inp.current ∧ inp'.initial = inp.initial ∧
      inp'.current.id = alloc ∧ inp'.initial.id ≠ inp'.current.id) ∧
    (∀ (dom : Dom) (event : RawEvent) (id : Int) (now alloc : Nat)
        (inp0 : Input) (a1 : Nat) (event' : RawEvent) (now' : Nat)
        (inp1 : Input) (a2 : Nat),
      Input.construct dom event id now alloc = .ok (inp0, a1) →
      Input.update inp0 event' now' a1 = .ok (inp1, a2) →
      inp1.previous = inp1.initial) := by
  constructor
  · intro inp event now alloc inp' alloc' hlt hupd
    cases hmk : PointerData.make (some event) inp.identifier now with
    | error e => rw [Input.update_eq_error inp event now alloc e hmk] at hupd
                 exact absurd hupd (by simp)
    | ok pd =>
        rw [Input.update_eq inp event now alloc pd hmk] at hupd
        simp only [Except.ok.injEq, Prod.mk.injEq] at hupd
        obtain ⟨hinp, _⟩ := hupd
        subst hinp
        exact ⟨rfl, rfl, rfl, Nat.ne_of_lt hlt⟩
  · intro dom event id now alloc inp0 a1 event' now' inp1 a2 hcons hupd
    cases hmk : PointerData.make (some event) id now with
    | error e =>
        rw [Input.construct_eq_error dom event id now alloc e hmk] at hcons
        exact absurd hcons (by simp)
    | ok pd =>
        rw [Input.construct_eq dom event id now alloc pd hmk] at hcons
        simp only [Except.ok.injEq, Prod.mk.injEq] at hcons
        obtain ⟨hinp0, _⟩ := hcons
        subst hinp0
        cases hmk' : PointerData.make (some event') id now' with
        | error e =>
            rw [Input.update_eq_error _ event' now' a1 e hmk'] at hupd
            exact absurd hupd (by simp)
        | ok pd' =>
            rw [Input.update_eq _ event' now' a1 pd' hmk'] at hupd
            simp only [Except.ok.injEq, Prod.mk.injEq] at hupd
            obtain ⟨hinp1, _⟩ := hupd
            subst hinp1
            rfl

/-- The PointerData built from the mouse sample at clock instant 3. -/
def pdMouse3 : PointerData := ⟨mouseEventEx, some .move, 3, ⟨89, 53⟩⟩

/-- The Input built by `Input.construct domEx mouseEventEx 0 3 10`. -/
def inputMouse0 : Input :=
  { initialElements := [4, 0, 1], initial := ⟨10, pdMouse3⟩,
    current := ⟨10, pdMouse3⟩, previous := ⟨10, pdMouse3⟩,
    identifier := 0, progress := [], records := [], nextRecordId := 0 }

/-- The Input after one update of `inputMouse0` at clock instant 4. -/
def inputMouse1 : Input :=
  { inputMouse0 with
    previous := inputMouse0.current,
    current := ⟨11, ⟨mouseEventEx, some .move, 4, ⟨89, 53⟩⟩⟩ }

/-- Witness for C3: constructing from the mouse sample and updating once
exhibits all four identity facts at concrete inputs. -/
theorem input_update_identity_spec_witness :
    (inputMouse1.previous = inputMouse0.current ∧
     inputMouse1.initial = inputMouse0.initial ∧
     inputMouse1.current.id = 11 ∧
     inputMouse1.initial.id ≠ inputMouse1.current.id) ∧
    inputMouse1.previous = inputMouse1.initial := by
  constructor
  · exact input_update_identity_spec.1 inputMouse0 mouseEventEx 4 11
      inputMouse1 12 (by decide) rfl
  · exact input_update_identity_spec.2 domEx mouseEventEx 0 3 10
      inputMouse0 11 mouseEventEx 4 inputMouse1 12 rfl rfl

/-- Well-formedness of an Input's gesture-progress bookkeeping: every
recorded scratch-record identity is below the allocator, and the
identities are pairwise distinct. -/
def progressWF (inp : Input) : Prop :=
  (∀ r ∈ inp.progress.map Prod.snd, r < inp.nextRecordId) ∧
  (inp.progress.map Prod.snd).Nodup

/-- A successful association-list lookup exhibits a member pair. -/
theorem lookup_mem {α β : Type} [BEq α] [LawfulBEq α] :
    ∀ {l : List (α × β)} {k : α} {v : β},
      l.lookup k = some v → (k, v) ∈ l := by
  intro l
  induction l with
  | nil => intro k v h; simp [List.lookup] at h
  | cons p t ih =>
      intro k v h
      rw [List.lookup] at h
      cases hk : k == p.1 with
      | true =>
          rw [hk] at h
          simp only [Option.some.injEq] at h
          subst h
          have hkk : k = p.1 := by simpa using hk
          subst hkk
          exact List.mem_cons_self _ _
      | false =>
          rw [hk] at h
          exact List.mem_cons_of_mem p (ih h)

/-- Lookup through a pointwise record update at a different key is
unchanged. -/
theorem lookup_map_update {α : Type} (t : List (Nat × α)) (r1 r2 : Nat)
    (f : α → α) (hne : r1 ≠ r2) :
    (t.map (fun p => if p.1 = r1 then (p.1, f p.2) else p)).lookup r2 =
      t.lookup r2 := by
  induction t with
  | nil => rfl
  | cons p t ih =>
      simp only [List.map_cons]
      by_cases hp : p.1 = r1
      · rw [if_pos hp]
        have hk : (r2 == p.1) = false := by
          simp only [beq_eq_false_iff_ne, ne_eq, hp]
          exact fun h => hne h.symm
        rw [List.lookup, List.lookup]
        simp only [hk]
        exact ih
      · rw [if_neg hp]
        rw [List.lookup, List.lookup]
        cases hk : r2 == p.1 with
        | true => simp only [hk]
        | false => simp only [hk]; exact ih

/-- Claim C8: getProgressOfGesture returns the identical scratch record
for repeated calls with the same key (creating an empty record on the
first access and leaving the input unchanged on later ones), distinct
keys receive distinct records, mutating one record never alters another,
and Input.update does not touch the progress storage. -/
theorem getprogress_identity_spec (inp : Input) (k1 k2 : String)
    (hwf : progressWF inp) :
    ((inp.getProgressOfGesture k1).2.getProgressOfGesture k1 =
       ((inp.getProgressOfGesture k1).1, (inp.getProgressOfGesture k1).2)) ∧
    (inp.progress.lookup k1 = none →
       ((inp.getProgressOfGesture k1).2.records.lookup
          (inp.getProgressOfGesture k1).1 = some [])) ∧
    (k1 ≠ k2 →
       (inp.getProgressOfGesture k1).1 ≠
         ((inp.getProgressOfGesture k1).2.getProgressOfGesture k2).1) ∧
    (∀ (jnp : Input) (r1 r2 : Nat) (key : String) (v : Int), r1 ≠ r2 →
       (jnp.setProgressField r1 key v).records.lookup r2 =
         jnp.records.lookup r2) ∧
    (∀ (event : RawEvent) (now alloc : Nat) (inp' : Input) (alloc' : Nat),
       Input.update inp event now alloc = .ok (inp', alloc') →
       inp'.progress = inp.progress ∧ inp'.records = inp.records ∧
       inp'.nextRecordId = inp.nextRecordId) := by
  obtain ⟨hbound, hnd⟩ := hwf
  refine ⟨?_, ?_, ?_, ?_, ?_⟩
  · cases hl : inp.progress.lookup k1 with
    | some r => simp [Input.getProgressOfGesture, hl]
    | none =>
        simp [Input.getProgressOfGesture, hl, List.lookup]
  · intro hl
    simp [Input.getProgressOfGesture, hl, List.lookup]
  · intro hne
    cases hl1 : inp.progress.lookup k1 with
    | some r1 =>
        simp only [Input.getProgressOfGesture, hl1]
        cases hl2 : inp.progress.lookup k2 with
        | some r2 =>
            simp only [hl2]
            intro heq
            have hm1 := lookup_mem hl1
            have hm2 := lookup_mem hl2
            have := List.inj_on_of_nodup_map hnd hm1 hm2 (by simpa using heq)
            exact hne (congrArg Prod.fst this)
        | none =>
            simp only [hl2]
            have : r1 < inp.nextRecordId :=
              hbound r1 (List.mem_map_of_mem Prod.snd (lookup_mem hl1))
            exact Nat.ne_of_lt this
    | none =>
        simp only [Input.getProgressOfGesture, hl1]
        have hk21 : (k2 == k1) = false := by
          simp only [beq_eq_false_iff_ne, ne_eq]
          exact fun h => hne h.symm
        have hl2eq :
            (({ inp with
                progress := (k1, inp.nextRecordId) :: inp.progress,
                records := (inp.nextRecordId, []) :: inp.records,
                nextRecordId := inp.nextRecordId + 1 } :
                Input).progress).lookup k2 = inp.progress.lookup k2 := by
          rw [List.lookup]
          simp only [hk21]
        cases hl2 : inp.progress.lookup k2 with
        | some r2 =>
            simp only [Input.getProgressOfGesture, hl2eq, hl2]
            have : r2 < inp.nextRecordId :=
              hbound r2 (List.mem_map_of_mem Prod.snd (lookup_mem hl2))
            exact (Nat.ne_of_lt this).symm
        | none =>
            simp only [Input.getProgressOfGesture, hl2eq, hl2]
            simp
  · intro jnp r1 r2 key v hne
    simp only [Input.setProgressField]
    exact lookup_map_update jnp.records r1 r2 (fun l => (key, v) :: l) hne
  · intro event now alloc inp' alloc' hupd
    cases hmk : PointerData.make (some event) inp.identifier now with
    | error e =>
        rw [Input.update_eq_error inp event now alloc e hmk] at hupd
        exact absurd hupd (by simp)
    | ok pd =>
        rw [Input.update_eq inp event now alloc pd hmk] at hupd
        simp only [Except.ok.injEq, Prod.mk.injEq] at hupd
        obtain ⟨hinp, _⟩ := hupd
        subst hinp
        exact ⟨rfl, rfl, rfl⟩

/-- Witness for C8 at `inputMouse0` (empty progress) with keys "pan" and
"pinch", and the mutation-isolation component at concrete record
identities. -/
theorem getprogress_identity_spec_witness :
    ((inputMouse0.getProgressOfGesture "pan").2.getProgressOfGesture "pan"
       = ((inputMouse0.getProgressOfGesture "pan").1,
          (inputMouse0.getProgressOfGesture "pan").2)) ∧
    ((inputMouse0.getProgressOfGesture "pan").2.records.lookup
       (inputMouse0.getProgressOfGesture "pan").1 = some []) ∧
    ((inputMouse0.getProgressOfGesture "pan").1 ≠
       ((inputMouse0.getProgressOfGesture "pan").2.getProgressOfGesture
          "pinch").1) ∧
    ((inputMouse1.setProgressField 1 "dx" 5).records.lookup 2 =
       inputMouse1.records.lookup 2) ∧
    (inputMouse1.progress = inputMouse0.progress ∧
     inputMouse1.records = inputMouse0.records ∧
     inputMouse1.nextRecordId = inputMouse0.nextRecordId) := by
  have h := getprogress_identity_spec inputMouse0 "pan" "pinch"
    ⟨by simp [inputMouse0], by simp [inputMouse0]⟩
  exact ⟨h.1, h.2.1 rfl, h.2.2.1 (by decide), h.2.2.2.1 inputMouse1 1 2
    "dx" 5 (by decide), h.2.2.2.2 mouseEventEx 4 11 inputMouse1 12 rfl⟩

/-- Claim C9: when the event lacks a composedPath method (and its
parent-chain walk terminates), the frozen start-element set built by the
fallback always includes both `document` and `window`; consequently
`wasInitiallyInside` holds for both, and a binding on `document` or
`window` is selected by retrieveBindingsByInitialPos whenever such an
input is alive in the registry. -/
theorem document_window_in_path_spec (dom : Dom) (event : RawEvent)
    (id : Int) (now alloc : Nat) (inp : Input) (alloc' : Nat)
    (hcp : event.composedPath = none)
    (hreach : reachesDocument dom dom.fuel event.target = true)
    (hcons : Input.construct dom event id now alloc = .ok (inp, alloc')) :
    inp.wasInitiallyInside dom.document = true ∧
    inp.wasInitiallyInside dom.window = true ∧
    ∀ (r : Region) (b : Binding) (key : Int),
      b ∈ r.bindings →
      (b.element = dom.document ∨ b.element = dom.window) →
      (key, inp) ∈ r.state →
      b ∈ r.retrieveBindingsByInitialPos := by
  have hpath : inp.initialElements =
      walkToDocument dom dom.fuel event.target ++
        [dom.document, dom.window] := by
    cases hmk : PointerData.make (some event) id now with
    | error e =>
        rw [Input.construct_eq_error dom event id now alloc e hmk] at hcons
        exact absurd hcons (by simp)
    | ok pd =>
        rw [Input.construct_eq dom event id now alloc pd hmk] at hcons
        simp only [Except.ok.injEq, Prod.mk.injEq] at hcons
        obtain ⟨hinp, _⟩ := hcons
        subst hinp
        simp [getElementsInPath, getPropagationPath, hcp]
  have hdoc : inp.wasInitiallyInside dom.document = true := by
    simp only [Input.wasInitiallyInside, hpath]
    simp
  have hwin : inp.wasInitiallyInside dom.window = true := by
    simp only [Input.wasInitiallyInside, hpath]
    simp
  refine ⟨hdoc, hwin, ?_⟩
  intro r b key hb helem hmem
  have hsome : r.state.someInputWasInitiallyInside b.element = true := by
    rw [State.someInputWasInitiallyInside, List.any_eq_true]
    refine ⟨(key, inp), hmem, ?_⟩
    rcases helem with h | h
    · rw [h]; exact hdoc
    · rw [h]; exact hwin
  rw [Region.retrieveBindingsByInitialPos, List.mem_filter]
  exact ⟨hb, hsome⟩

/-- A mousedown with no composedPath method whose target (5) reaches
document (0) through parent 3. -/
def fallbackEventEx : RawEvent :=
  { type := "mousedown", clientX := 1, clientY := 2, target := 5,
    changedTouches := none, composedPath := none, timeStamp := 0 }

/-- A DOM in which element 5's parent is 3 and everything else hangs off
the document (element 0); window is element 1. -/
def fallbackDomEx : Dom :=
  { parent := fun n => if n = 5 then 3 else 0, document := 0, window := 1,
    fuel := 4 }

/-- The Input built by constructing from `fallbackEventEx`: its frozen
start-element set is the walked chain [5, 3] plus document and window. -/
def fallbackInputEx : Input :=
  { initialElements := [5, 3, 0, 1],
    initial := ⟨20, ⟨fallbackEventEx, some .start, 3, ⟨1, 2⟩⟩⟩,
    current := ⟨20, ⟨fallbackEventEx, some .start, 3, ⟨1, 2⟩⟩⟩,
    previous := ⟨20, ⟨fallbackEventEx, some .start, 3, ⟨1, 2⟩⟩⟩,
    identifier := 0, progress := [], records := [], nextRecordId := 0 }

/-- A region with one binding on the document and the fallback input
alive. -/
def fallbackRegionEx : Region :=
  { bindings := [⟨0, 0, 0, 0⟩], state := [(0, fallbackInputEx)] }

/-- Witness for C9 at the concrete fallback scenario. -/
theorem document_window_in_path_spec_witness :
    fallbackInputEx.wasInitiallyInside 0 = true ∧
    fallbackInputEx.wasInitiallyInside 1 = true ∧
    (⟨0, 0, 0, 0⟩ : Binding) ∈
      fallbackRegionEx.retrieveBindingsByInitialPos := by
  have h := document_window_in_path_spec fallbackDomEx fallbackEventEx 0 3
    20 fallbackInputEx 21 rfl (by decide) rfl
  exact ⟨h.1, h.2.1, h.2.2 fallbackRegionEx ⟨0, 0, 0, 0⟩ 0
    (by simp [fallbackRegionEx]) (Or.inl rfl)
    (by simp [fallbackRegionEx])⟩

/-- Unfolding equation for Region.arbitrate on a successful registry
update. -/
theorem Region.arbitrate_eq (dom : Dom) (env : GestureEnv) (r : Region)
    (event : RawEvent) (now alloc : Nat) (s1 : State) (a1 : Nat)
    (hup : State.updateAllInputs dom r.state event now alloc =
      .ok (s1, a1)) :
    Region.arbitrate dom env r event now alloc =
      .ok ({ r with state := s1.clearEndedInputs },
        ⟨({ r with state := s1 } : Region).retrieveBindingsByInitialPos.map
            (fun b => (b, PHASE event.type, s1)),
          (({ r with state := s1 } :
              Region).retrieveBindingsByInitialPos.map
            (fun b => b.evaluateHook env (PHASE event.type) s1)).flatten,
          s1.clearEndedInputs, a1⟩) := by
  unfold Region.arbitrate
  rw [hup]
  rfl

/-- Claim C1: the binding-applicability test someInputWasInitiallyInside
is true exactly when some alive InputTrack's frozen start-path contains
the element; the test is untouched by position updates (Input.update);
and in an arbitration pass whose updated registry has no track with the
binding's element in its start-path, that binding receives no hook
dispatch. -/
theorem tracks_started_inside_spec (s : State) (element : Nat) :
    (s.someInputWasInitiallyInside element = true ↔
      ∃ p ∈ s, element ∈ p.2.initialElements) ∧
    (∀ (inp : Input) (event : RawEvent) (now alloc : Nat) (inp' : Input)
        (alloc' : Nat),
      Input.update inp event now alloc = .ok (inp', alloc') →
      inp'.wasInitiallyInside element = inp.wasInitiallyInside element) ∧
    (∀ (dom : Dom) (env : GestureEnv) (r : Region) (event : RawEvent)
        (now alloc a1 : Nat) (s1 : State) (r' : Region)
        (res : ArbitrationResult) (b : Binding),
      b.element = element →
      State.updateAllInputs dom r.state event now alloc = .ok (s1, a1) →
      (∀ p ∈ s1, element ∉ p.2.initialElements) →
      Region.arbitrate dom env r event now alloc = .ok (r', res) →
      ∀ d ∈ res.dispatches, d.1 ≠ b) := by
  have hiff : ∀ (t : State),
      t.someInputWasInitiallyInside element = true ↔
        ∃ p ∈ t, element ∈ p.2.initialElements := by
    intro t
    rw [State.someInputWasInitiallyInside, List.any_eq_true]
    constructor
    · rintro ⟨p, hp, hw⟩
      exact ⟨p, hp, by simpa [Input.wasInitiallyInside] using hw⟩
    · rintro ⟨p, hp, hw⟩
      exact ⟨p, hp, by simpa [Input.wasInitiallyInside] using hw⟩
  refine ⟨hiff s, ?_, ?_⟩
  · intro inp event now alloc inp' alloc' hupd
    cases hmk : PointerData.make (some event) inp.identifier now with
    | error e =>
        rw [Input.update_eq_error inp event now alloc e hmk] at hupd
        exact absurd hupd (by simp)
    | ok pd =>
        rw [Input.update_eq inp event now alloc pd hmk] at hupd
        simp only [Except.ok.injEq, Prod.mk.injEq] at hupd
        obtain ⟨hinp, _⟩ := hupd
        subst hinp
        rfl
  · intro dom env r event now alloc a1 s1 r' res b hbel hup hnone harb
    rw [Region.arbitrate_eq dom env r event now alloc s1 a1 hup] at harb
    simp only [Except.ok.injEq, Prod.mk.injEq] at harb
    obtain ⟨_, hres⟩ := harb
    subst hres
    intro d hd hdb
    simp only [ArbitrationResult.dispatches, List.mem_map] at hd
    obtain ⟨c, hc, hcd⟩ := hd
    rw [Region.retrieveBindingsByInitialPos, List.mem_filter] at hc
    have hcb : c = b := by
      have := congrArg Prod.fst hcd
      simpa [hdb] using this
    subst hcb
    rw [hbel] at hc
    have := (hiff s1).mp hc.2
    obtain ⟨p, hp, hw⟩ := this
    exact hnone p hp hw

/-- A region with a binding (ref 1) on element 9, which is in no track's
start-path, and one alive mouse input whose start-path is [4, 0, 1]. -/
def outsideRegionEx : Region :=
  { bindings := [⟨1, 9, 0, 0⟩], state := [(0, inputMouse0)] }

/-- Witness for C1: the applicability test is false for element 9 (in no
start-path) and true for element 4 (in `inputMouse0`'s start-path); a
mousemove arbitration pass dispatches nothing to the binding on
element 9. -/
theorem tracks_started_inside_spec_witness :
    ((State.someInputWasInitiallyInside [(0, inputMouse0)] 9 = true ↔
       ∃ p ∈ [((0 : Int), inputMouse0)], 9 ∈ p.2.initialElements) ∧
     (State.someInputWasInitiallyInside [(0, inputMouse0)] 9 = false) ∧
     (State.someInputWasInitiallyInside [(0, inputMouse0)] 4 = true)) ∧
    ∀ d ∈ (⟨[], [], [(0, inputMouse1)], 12⟩ :
            ArbitrationResult).dispatches,
      d.1 ≠ (⟨1, 9, 0, 0⟩ : Binding) := by
  constructor
  · exact ⟨(tracks_started_inside_spec [(0, inputMouse0)] 9).1,
      by decide, by decide⟩
  · exact (tracks_started_inside_spec [(0, inputMouse0)] 9).2.2
      domEx envEx outsideRegionEx mouseEventEx 4 11 12 [(0, inputMouse1)]
      { outsideRegionEx with state := [(0, inputMouse1)] }
      ⟨[], [], [(0, inputMouse1)], 12⟩
      ⟨1, 9, 0, 0⟩ rfl rfl (by decide) rfl

/-- Claim C2: in one arbitration pass, the registry update precedes
binding selection (the selection is computed from the updated registry
s1), every hook dispatch observes exactly s1, and the purge of ended
tracks produces the final registry only after all dispatches: every
track terminal in s1 is present in the registry every dispatched hook
observes and absent from the registry after the pass. -/
theorem arbitrate_ordering_spec (dom : Dom) (env : GestureEnv) (r : Region)
    (event : RawEvent) (now alloc : Nat) (s1 : State) (a1 : Nat)
    (r' : Region) (res : ArbitrationResult)
    (hup : State.updateAllInputs dom r.state event now alloc =
      .ok (s1, a1))
    (harb : Region.arbitrate dom env r event now alloc = .ok (r', res)) :
    (∀ d ∈ res.dispatches, d.2.2 = s1) ∧
    res.dispatches =
      ({ r with state := s1 } : Region).retrieveBindingsByInitialPos.map
        (fun b => (b, PHASE event.type, s1)) ∧
    r'.state = s1.clearEndedInputs ∧
    res.finalState = s1.clearEndedInputs ∧
    (∀ (key : Int) (inp : Input), (key, inp) ∈ s1 →
      isTerminalPhase inp.phase = true →
      (∀ d ∈ res.dispatches, (key, inp) ∈ d.2.2) ∧
      (key, inp) ∉ r'.state) := by
  rw [Region.arbitrate_eq dom env r event now alloc s1 a1 hup] at harb
  simp only [Except.ok.injEq, Prod.mk.injEq] at harb
  obtain ⟨hr', hres⟩ := harb
  subst hres
  refine ⟨?_, rfl, ?_, rfl, ?_⟩
  · intro d hd
    simp only [ArbitrationResult.dispatches, List.mem_map] at hd
    obtain ⟨c, _, hcd⟩ := hd
    rw [← hcd]
  · rw [← hr']
  · intro key inp hmem hterm
    constructor
    · intro d hd
      simp only [ArbitrationResult.dispatches, List.mem_map] at hd
      obtain ⟨c, _, hcd⟩ := hd
      rw [← hcd]
      exact hmem
    · rw [← hr']
      simp only [Region.state, State.clearEndedInputs, List.mem_filter]
      rintro ⟨_, hkeep⟩
      rw [Bool.not_eq_true'] at hkeep
      rw [hterm] at hkeep
      exact absurd hkeep (by simp)

/-- A mouseup raw event targeting element 4. -/
def endEventEx : RawEvent :=
  { type := "mouseup", clientX := 90, clientY := 54, target := 4,
    changedTouches := none, composedPath := some [4, 0, 1],
    timeStamp := 3 }

/-- `inputMouse0` after the mouseup update: phase end. -/
def inputMouseEnd : Input :=
  { inputMouse0 with
    previous := inputMouse0.current,
    current := ⟨11, ⟨endEventEx, some .end_, 5, ⟨90, 54⟩⟩⟩ }

/-- A region with one binding (ref 2) on element 4, which lies in
`inputMouse0`'s start-path, and that input alive. -/
def endRegionEx : Region :=
  { bindings := [⟨2, 4, 0, 0⟩], state := [(0, inputMouse0)] }

/-- The arbitration outcome of the mouseup pass on `endRegionEx`: one
dispatch observing the updated registry still holding the ending track,
and an empty final registry. -/
def endResEx : ArbitrationResult :=
  ⟨[(⟨2, 4, 0, 0⟩, PHASE endEventEx.type, [(0, inputMouseEnd)])],
   [], [], 12⟩

/-- Witness for C2 at the concrete mouseup scenario. -/
theorem arbitrate_ordering_spec_witness :
    (∀ d ∈ endResEx.dispatches, d.2.2 = [((0 : Int), inputMouseEnd)]) ∧
    endResEx.dispatches =
      ({ endRegionEx with state := [(0, inputMouseEnd)] } :
        Region).retrieveBindingsByInitialPos.map
          (fun b => (b, PHASE endEventEx.type, [(0, inputMouseEnd)])) ∧
    (∀ d ∈ endResEx.dispatches, ((0 : Int), inputMouseEnd) ∈ d.2.2) ∧
    ((0 : Int), inputMouseEnd) ∉
      ({ endRegionEx with state := [] } : Region).state := by
  have h := arbitrate_ordering_spec domEx envEx endRegionEx endEventEx 5 11
    [(0, inputMouseEnd)] 12 { endRegionEx with state := [] } endResEx
    rfl rfl
  have he := h.2.2.2.2 0 inputMouseEnd (by simp) rfl
  exact ⟨h.1, h.2.1, he.1, he.2⟩

/-- The predicate deciding which bindings `unbind(element, gesture)`
removes: the gesture filter of the forEach body conjoined with the
element filter of retrieveBindingsByElement. -/
def unbindMatches (element : Nat) (gesture : Option Nat) (b : Binding) :
    Bool :=
  decide (gesture = none ∨ some b.gesture = gesture) &&
    (b.element == element)

/-- The Boolean shuffle that merges the two removal filters of the
unbind loop. -/
theorem bool_filter_aux (x y : Bool) : (!y && !x) = !(x || y) := by
  cases x <;> cases y <;> rfl

/-- Under unique binding identities, splicing out the first `===`-match
of `b` removes exactly the binding with `b`'s identity. -/
theorem spliceRemoveOne_eq_filter (l : List Binding) (b : Binding)
    (hnd : (l.map Binding.ref).Nodup)
    (hmem : b.ref ∈ l.map Binding.ref) :
    spliceRemoveOne l b = l.filter (fun c => c.ref != b.ref) := by
  induction l with
  | nil => simp at hmem
  | cons a t ih =>
      simp only [List.map_cons, List.nodup_cons] at hnd
      obtain ⟨hna, hndt⟩ := hnd
      by_cases hab : a.ref = b.ref
      · have hspl : spliceRemoveOne (a :: t) b = t := by
          rw [spliceRemoveOne, indexOfBinding, List.findIdx?_cons,
            if_pos (show (a.ref == b.ref) = true by simpa using hab)]
          rfl
        rw [hspl, List.filter_cons,
          if_neg (show ¬((a.ref != b.ref) = true) by simp [hab])]
        symm
        rw [List.filter_eq_self]
        intro c hc
        simp only [bne_iff_ne, ne_eq]
        intro hcb
        rw [← hab] at hcb
        exact hna (hcb ▸ List.mem_map_of_mem Binding.ref hc)
      · have hmemt : b.ref ∈ t.map Binding.ref := by
          rcases List.mem_cons.mp hmem with h | h
          · exact absurd h.symm (by simpa using hab)
          · exact h
        have hex : ∃ c ∈ t, (c.ref == b.ref) = true := by
          obtain ⟨d, hd, hdr⟩ := List.mem_map.mp hmemt
          exact ⟨d, hd, by simp [hdr]⟩
        cases hfi : t.findIdx? (fun c => c.ref == b.ref) with
        | none =>
            obtain ⟨c, hc, hcr⟩ := hex
            have := List.findIdx?_eq_none_iff.mp hfi c hc
            rw [hcr] at this
            exact absurd this (by simp)
        | some i =>
            have hsplt : spliceRemoveOne t b = t.eraseIdx i := by
              rw [spliceRemoveOne, indexOfBinding, hfi]
            have hspl :
                spliceRemoveOne (a :: t) b = a :: t.eraseIdx i := by
              rw [spliceRemoveOne, indexOfBinding, List.findIdx?_cons,
                if_neg (show ¬((a.ref == b.ref) = true) by simpa using hab),
                List.findIdx?_succ, hfi]
              rfl
            rw [hspl, List.filter_cons,
              if_pos (show (a.ref != b.ref) = true by simpa using hab)]
            rw [← hsplt, ih hndt hmemt]

/-- The effect of the forEach-splice loop of unbind: starting from the
full list, processing `todo` removes exactly the gesture-matching
entries of `todo` and appends them, in order, to the accumulator. -/
theorem unbind_foldl_spec (gesture : Option Nat) :
    ∀ (todo cur acc : List Binding),
      (cur.map Binding.ref).Nodup →
      (∀ b ∈ todo, b.ref ∈ cur.map Binding.ref) →
      (todo.map Binding.ref).Nodup →
      todo.foldl
        (fun acc b =>
          if gesture = none ∨ some b.gesture = gesture then
            (spliceRemoveOne acc.1 b, acc.2 ++ [b])
          else acc)
        (cur, acc) =
      (cur.filter (fun c =>
         !((todo.filter
             (fun b =>
               decide (gesture = none ∨ some b.gesture = gesture))).map
            Binding.ref).contains c.ref),
       acc ++ todo.filter
         (fun b => decide (gesture = none ∨ some b.gesture = gesture))) := by
  intro todo
  induction todo with
  | nil =>
      intro cur acc _ _ _
      simp [List.filter_eq_self]
  | cons b todo ih =>
      intro cur acc hndcur hsub hndtodo
      simp only [List.map_cons, List.nodup_cons] at hndtodo
      obtain ⟨hnb, hndtodo⟩ := hndtodo
      rw [List.foldl_cons]
      by_cases hq : gesture = none ∨ some b.gesture = gesture
      · rw [if_pos hq]
        have hbmem : b.ref ∈ cur.map Binding.ref :=
          hsub b (List.mem_cons_self b todo)
        rw [spliceRemoveOne_eq_filter cur b hndcur hbmem]
        have hndcur' :
            ((cur.filter (fun c => c.ref != b.ref)).map Binding.ref).Nodup :=
          ((List.filter_sublist cur).map Binding.ref).nodup hndcur
        have hsub' : ∀ c ∈ todo,
            c.ref ∈ (cur.filter (fun c => c.ref != b.ref)).map Binding.ref :=
          by
          intro c hc
          obtain ⟨d, hd, hdr⟩ := List.mem_map.mp (hsub c (List.mem_cons_of_mem b hc))
          have hcb : c.ref ≠ b.ref := by
            intro h
            exact hnb (h ▸ List.mem_map_of_mem Binding.ref hc)
          refine List.mem_map.mpr ⟨d, List.mem_filter.mpr ⟨hd, ?_⟩, hdr⟩
          simp only [bne_iff_ne, ne_eq]
          rw [hdr]
          exact hcb
        rw [ih _ (acc ++ [b]) hndcur' hsub' hndtodo]
        rw [List.filter_cons, if_pos (decide_eq_true hq)]
        simp only [List.map_cons]
        rw [Prod.mk.injEq]
        constructor
        · rw [List.filter_filter]
          apply List.filter_congr
          intro c _
          rw [List.contains_cons]
          exact bool_filter_aux (c.ref == b.ref)
            ((List.map Binding.ref
              (List.filter
                (fun b => decide (gesture = none ∨ some b.gesture = gesture))
                todo)).contains c.ref)
        · simp
      · rw [if_neg hq]
        rw [ih cur acc hndcur
          (fun c hc => hsub c (List.mem_cons_of_mem b hc)) hndtodo]
        rw [List.filter_cons,
          if_neg (show ¬(decide (gesture = none ∨ some b.gesture = gesture)
            = true) by simpa using hq)]

/-- Claim C6: under unique binding identities, `unbind(element)` removes
from the binding list exactly the bindings on that element (returning
exactly those, in order, and leaving the others in place), and
`unbind(element, g)` removes exactly the bindings matching both the
element and the gesture `g` by identity; the removed list is literally
the filter of the original list, so no match is skipped or processed
twice. -/
theorem unbind_spec (r : Region) (element : Nat) (gesture : Option Nat)
    (hnd : (r.bindings.map Binding.ref).Nodup) :
    (r.unbind element gesture).1 =
      r.bindings.filter (fun b => !unbindMatches element gesture b) ∧
    (r.unbind element gesture).2 =
      r.bindings.filter (unbindMatches element gesture) := by
  have hsub : ∀ b ∈ r.retrieveBindingsByElement element,
      b.ref ∈ r.bindings.map Binding.ref := by
    intro b hb
    exact List.mem_map_of_mem Binding.ref
      (List.mem_filter.mp hb).1
  have hndtodo :
      ((r.retrieveBindingsByElement element).map Binding.ref).Nodup :=
    ((List.filter_sublist r.bindings).map Binding.ref).nodup hnd
  simp only [Region.unbind]
  rw [unbind_foldl_spec gesture (r.retrieveBindingsByElement element)
    r.bindings [] hnd hsub hndtodo]
  rw [Region.retrieveBindingsByElement, List.filter_filter]
  constructor
  · apply List.filter_congr
    intro c hc
    rw [unbindMatches]
    cases hm :
        (decide (gesture = none ∨ some c.gesture = gesture) &&
          (c.element == element)) with
    | true =>
        have hcmem : c.ref ∈
            (r.bindings.filter
              (fun b =>
                decide (gesture = none ∨ some b.gesture = gesture) &&
                  (b.element == element))).map Binding.ref :=
          List.mem_map_of_mem Binding.ref
            (List.mem_filter.mpr ⟨hc, hm⟩)
        have hcon : List.contains
            ((r.bindings.filter
              (fun b =>
                decide (gesture = none ∨ some b.gesture = gesture) &&
                  (b.element == element))).map Binding.ref) c.ref = true :=
          List.elem_iff.mpr hcmem
        rw [hcon]
    | false =>
        cases hcon : List.contains
            ((r.bindings.filter
              (fun b =>
                decide (gesture = none ∨ some b.gesture = gesture) &&
                  (b.element == element))).map Binding.ref) c.ref with
        | false => rfl
        | true =>
            exfalso
            have hcmem := List.elem_iff.mp hcon
            obtain ⟨d, hd, hdr⟩ := List.mem_map.mp hcmem
            have hdmem := List.mem_filter.mp hd
            have hdc : d = c :=
              List.inj_on_of_nodup_map hnd hdmem.1 hc hdr
            rw [hdc] at hdmem
            rw [hdmem.2] at hm
            exact absurd hm (by simp)
  · simp only [List.nil_append]
    apply List.filter_congr
    intro c _
    rw [unbindMatches]

/-- A region with four bindings: three on element 100 (gestures 7, 7
and 8) and one on element 200. -/
def unbindRegionEx : Region :=
  { bindings := [⟨0, 100, 7, 0⟩, ⟨1, 200, 7, 0⟩, ⟨2, 100, 8, 0⟩,
                 ⟨3, 100, 7, 0⟩],
    state := [] }

/-- Witness for C6: unbinding element 100 with no gesture removes the
three bindings on 100 and leaves the one on 200; unbinding element 100
with gesture 7 removes the two matching both and leaves the others. -/
theorem unbind_spec_witness :
    ((unbindRegionEx.unbind 100 none).1 = [⟨1, 200, 7, 0⟩] ∧
     (unbindRegionEx.unbind 100 none).2 =
       [⟨0, 100, 7, 0⟩, ⟨2, 100, 8, 0⟩, ⟨3, 100, 7, 0⟩]) ∧
    ((unbindRegionEx.unbind 100 (some 7)).1 =
       [⟨1, 200, 7, 0⟩, ⟨2, 100, 8, 0⟩] ∧
     (unbindRegionEx.unbind 100 (some 7)).2 =
       [⟨0, 100, 7, 0⟩, ⟨3, 100, 7, 0⟩]) := by
  have h1 := unbind_spec unbindRegionEx 100 none (by decide)
  have h2 := unbind_spec unbindRegionEx 100 (some 7) (by decide)
  exact ⟨⟨h1.1.trans (by decide), h1.2.trans (by decide)⟩,
         ⟨h2.1.trans (by decide), h2.2.trans (by decide)⟩⟩

end Westures
